import Mathlib

/-!
Verification development for the `tensorbuffers` Rust crate: a shallow
embedding of the TensorBuffers container format — the writer
(`tensor_buffers_writer.rs`), the streaming reader
(`tensor_buffers_reader.rs`), the `TensorBuffers` facade
(`tensor_buffers.rs`), and the remote byte-source state machine
(`tensor_buffers_file.rs`) — together with theorems about the format's
round-trip, tamper-rejection, lookup, layout and transport properties.

Bytes are modelled as `Nat` values (each `< 256` where produced by the
code), files as `List Nat`, machine integers as `Nat` with explicit
`% 2^32` / `% 2^64` at the points where the Rust code truncates
(`as u32` casts, `u64` wrap-around), and every fallible operation as
`Except TBError _` mirroring the crate's `Result` types.
-/

set_option maxRecDepth 100000

namespace TensorBuffers

/-- The ten supported element kinds (`DataType` in `num_trait.rs`). -/
inductive DataTypeT where
  | int8 | int16 | int32 | int64
  | uint8 | uint16 | uint32 | uint64
  | float32 | float64
deriving DecidableEq, Repr

/-- `size_of::<T>()` for each supported element kind. -/
def elemSize : DataTypeT → Nat
  | .int8 => 1 | .uint8 => 1
  | .int16 => 2 | .uint16 => 2
  | .int32 => 4 | .uint32 => 4 | .float32 => 4
  | .int64 => 8 | .uint64 => 8 | .float64 => 8

/-- Error kinds of the crate.  The Rust code returns `Box<dyn Error>` /
`std::io::Error` values; each constructor corresponds to one family of
error sites:
`io` — failures of the underlying source (`read_exact` hitting EOF, a
seek to a negative position);
`format` — "Invalid magic bytes" and "Failed to read metadata from mmap";
`size` — "Buffer size is insufficient";
`typeMismatch` — "Tensor data type mismatch ...";
`range` — "Tensor data range [..) out of bounds";
`sizeMultiple` — "Tensor data size (..) is not a multiple of type size";
`lookup` — "Tensor ID not found in metadata";
`input` — `ErrorKind::InvalidInput` ("Seek overflow", bad URI scheme). -/
inductive TBError where
  | io | format | size | typeMismatch | range | sizeMultiple | lookup | input
deriving DecidableEq, Repr

instance {ε α : Type} [DecidableEq ε] [DecidableEq α] : DecidableEq (Except ε α) := fun x y =>
  match x, y with
  | .ok a, .ok b =>
    if h : a = b then .isTrue (by rw [h]) else .isFalse (by intro hc; injection hc; contradiction)
  | .error a, .error b =>
    if h : a = b then .isTrue (by rw [h]) else .isFalse (by intro hc; injection hc; contradiction)
  | .ok _, .error _ => .isFalse nofun
  | .error _, .ok _ => .isFalse nofun

/-- Little-endian byte encoding of `x` on `n` bytes (`to_le_bytes`,
truncating like the `as u32` casts do). -/
def leBytes : Nat → Nat → List Nat
  | 0, _ => []
  | n + 1, x => (x % 256) :: leBytes n (x / 256)

/-- Little-endian value of a byte list (`u32::from_le_bytes` on a 4-byte
buffer; each byte is reduced `% 256` as a byte is). -/
def leVal : List Nat → Nat
  | [] => 0
  | b :: bs => b % 256 + 256 * leVal bs

theorem leBytes_length (n x : Nat) : (leBytes n x).length = n := by
  induction n generalizing x with
  | zero => rfl
  | succ n ih => simp [leBytes, ih]

theorem leVal_leBytes_four (x : Nat) : leVal (leBytes 4 x) = x % 2 ^ 32 := by
  simp only [leBytes, leVal]
  omega

/-- FNV-1a 64-bit hash of a byte sequence (the `fnv` crate's
`FnvHasher::write` over the fed bytes, starting from the default offset
basis). -/
def fnv1a (bytes : List Nat) : Nat :=
  bytes.foldl (fun h b => ((h ^^^ (b % 256)) * 0x100000001b3) % 2 ^ 64) 0xcbf29ce484222325

/-- `utils.rs::hash_key` — hashes a name with `FnvHasher` via `str`'s
`Hash` impl, which feeds the UTF-8 bytes of the string followed by a
single `0xff` terminator byte.  Names are modelled as their UTF-8 byte
lists. -/
def hash_key (key : List Nat) : Nat :=
  fnv1a (key ++ [0xff])

/-- In-memory `Tensor<'a, T>` (`tensor.rs`) with the element slice
flattened to its raw bytes (`bytemuck::cast_slice::<T, u8>`). -/
structure TensorV where
  id : Nat
  name : List Nat
  data : List Nat
  dtype : DataTypeT
  shape : List Nat
deriving DecidableEq, Repr

/-- `Tensor::new` — the id is the fingerprint of the name and the data
type is the static kind of `T`. -/
def TensorV.new (name : List Nat) (data : List Nat) (dtype : DataTypeT)
    (shape : List Nat) : TensorV :=
  { id := hash_key name, name := name, data := data, dtype := dtype, shape := shape }

/-- Persisted `TensorMetadata` (one trailer-table entry): id, name,
element-kind tag, `data_offset`/`data_size` (stored as `u32`), shape
(dimensions stored as `u32`). -/
structure TensorMeta where
  id : Nat
  name : List Nat
  dtype : DataTypeT
  data_offset : Nat
  data_size : Nat
  shape : List Nat
deriving DecidableEq, Repr

/-- Trailer root (`TensorBuffersMetadata`): version string plus the
tensor table.  The writer always populates both fields, so they are
modelled as present. -/
structure MetadataRoot where
  version : List Nat
  tensors : List TensorMeta
deriving DecidableEq, Repr

/-- Modelled from the spec: the format's fixed 4-byte magic constant
(`constants.rs::MAGIC_BYTES` is not under `src/`; the spec fixes only
that it is a 4-byte sequence, so a concrete representative is used). -/
def MAGIC_BYTES : List Nat := [0x54, 0x42, 0x55, 0x46]

/-- Modelled from the spec: the free-text version string
(`constants.rs::VERSION` is not under `src/`). -/
def VERSION : List Nat := [0x30, 0x2e, 0x31, 0x2e, 0x30]

/-- Numeric tag of an element kind in the encoded trailer. -/
def dtypeTag : DataTypeT → Nat
  | .int8 => 0 | .int16 => 1 | .int32 => 2 | .int64 => 3
  | .uint8 => 4 | .uint16 => 5 | .uint32 => 6 | .uint64 => 7
  | .float32 => 8 | .float64 => 9

/-- Inverse of `dtypeTag`. -/
def tagDtype : Nat → Option DataTypeT
  | 0 => some .int8 | 1 => some .int16 | 2 => some .int32 | 3 => some .int64
  | 4 => some .uint8 | 5 => some .uint16 | 6 => some .uint32 | 7 => some .uint64
  | 8 => some .float32 | 9 => some .float64
  | _ => none

/-- Length-prefixed byte field of the modelled codec. -/
def encodeBytesField (bs : List Nat) : List Nat :=
  leBytes 4 bs.length ++ bs

/-- Modelled from the spec: one `TensorMetadata` table entry as encoded
by the Metadata Codec.  The codec (generated FlatBuffers code, absent
from `src/`) is an external collaborator consumed as an opaque
encoder/decoder of the trailer tables; it is modelled as a simple
injective length-prefixed binary encoding. -/
def encodeMeta (m : TensorMeta) : List Nat :=
  leBytes 8 m.id ++ encodeBytesField m.name ++ [dtypeTag m.dtype] ++
    leBytes 4 m.data_offset ++ leBytes 4 m.data_size ++
    leBytes 4 m.shape.length ++ (m.shape.map (leBytes 4)).flatten

/-- Modelled from the spec: the Metadata Codec's encoding of the trailer
root (version string plus tensor table) to bytes
(`FlatBufferBuilder::finished_data` in the source). -/
def encodeMetadata (version : List Nat) (metas : List TensorMeta) : List Nat :=
  encodeBytesField version ++ leBytes 4 metas.length ++ (metas.map encodeMeta).flatten

/-- Parse `n` little-endian bytes as a number, returning the rest. -/
def parseNum (n : Nat) (bs : List Nat) : Option (Nat × List Nat) :=
  if n ≤ bs.length then some (leVal (bs.take n), bs.drop n) else none

/-- Parse a raw chunk of `n` bytes, returning the rest. -/
def parseChunk (n : Nat) (bs : List Nat) : Option (List Nat × List Nat) :=
  if n ≤ bs.length then some (bs.take n, bs.drop n) else none

/-- Parse `k` shape dimensions. -/
def parseShape : Nat → List Nat → Option (List Nat × List Nat)
  | 0, bs => some ([], bs)
  | k + 1, bs => do
    let (d, bs₁) ← parseNum 4 bs
    let (rest, bs₂) ← parseShape k bs₁
    pure (d :: rest, bs₂)

/-- Parse one encoded `TensorMeta`. -/
def parseMeta (bs : List Nat) : Option (TensorMeta × List Nat) := do
  let (i, bs₁) ← parseNum 8 bs
  let (nlen, bs₂) ← parseNum 4 bs₁
  let (name, bs₃) ← parseChunk nlen bs₂
  let (tag, bs₄) ← parseNum 1 bs₃
  let dt ← tagDtype tag
  let (off, bs₅) ← parseNum 4 bs₄
  let (sz, bs₆) ← parseNum 4 bs₅
  let (slen, bs₇) ← parseNum 4 bs₆
  let (shape, bs₈) ← parseShape slen bs₇
  pure (⟨i, name, dt, off, sz, shape⟩, bs₈)

/-- Parse `k` encoded `TensorMeta` entries. -/
def parseMetas : Nat → List Nat → Option (List TensorMeta × List Nat)
  | 0, bs => some ([], bs)
  | k + 1, bs => do
    let (m, bs₁) ← parseMeta bs
    let (ms, bs₂) ← parseMetas k bs₁
    pure (m :: ms, bs₂)

/-- Modelled from the spec: the Metadata Codec's decoding of the trailer
root from bytes (`flatbuffers::root::<TensorBuffersMetadata>` in the
source), the partial inverse of `encodeMetadata`. -/
def decodeMetadata (bs : List Nat) : Option MetadataRoot := do
  let (vlen, bs₁) ← parseNum 4 bs
  let (version, bs₂) ← parseChunk vlen bs₁
  let (count, bs₃) ← parseNum 4 bs₂
  let (metas, _) ← parseMetas count bs₃
  pure ⟨version, metas⟩

/-!
## Writer (`tensor_buffers_writer.rs::write_tensors`)

The writer emits the leading magic, then streams each tensor's raw bytes
in input order while pushing `current_offset as u32` for each tensor and
advancing `current_offset` (a `u64`) by `data_size as u32`; it then
encodes the trailer, writes it, writes the trailer length as a
little-endian `u32`, writes the trailing magic, and flushes.
-/

/-- The single forward pass of `write_tensors`: from the running
`current_offset` (a `u64`), produce the list of recorded `u32` offsets
and the concatenation of data bytes emitted by the loop. -/
def writeLoop : Nat → List TensorV → List Nat × List Nat
  | _, [] => ([], [])
  | cur, t :: ts =>
    let ds := t.data.length % 2 ^ 32
    let rest := writeLoop ((cur + ds) % 2 ^ 64) ts
    ((cur % 2 ^ 32) :: rest.1, t.data ++ rest.2)

/-- The `TensorMetadata` table the writer builds: tensor `i` paired with
`data_offsets[i]`; `data_size` is `data_bytes.len() as u32` and each
shape dimension is `dim as u32`. -/
def tensorMetas (ts : List TensorV) : List TensorMeta :=
  List.zipWith
    (fun t off =>
      { id := t.id, name := t.name, dtype := t.dtype, data_offset := off,
        data_size := t.data.length % 2 ^ 32, shape := t.shape.map (· % 2 ^ 32) })
    ts (writeLoop 4 ts).1

/-- The full byte output of `write_tensors`: leading magic, data blocks,
encoded trailer, trailer length as little-endian `u32`
(`flatbuffer_data.len() as u32`), trailing magic. -/
def writeTensorsBytes (ts : List TensorV) : List Nat :=
  MAGIC_BYTES ++ (writeLoop 4 ts).2 ++ encodeMetadata VERSION (tensorMetas ts) ++
    leBytes 4 ((encodeMetadata VERSION (tensorMetas ts)).length % 2 ^ 32) ++ MAGIC_BYTES

/-!
## Streaming reader (`tensor_buffers_reader.rs`)

Each operation starts with an absolute seek, so it is a function of the
file contents.  `read_exact` into a buffer of length `n` positioned at
`pos` succeeds exactly when `pos + n` bytes exist, and fails with an I/O
error (EOF) otherwise; a `SeekFrom::End(-k)` seek fails with an I/O
error when `k` exceeds the file length (negative seek position).
-/

/-- `reader.seek(SeekFrom::End(-(back)))` resolved to an absolute
position. -/
def seekFromEnd (file : List Nat) (back : Nat) : Except TBError Nat :=
  if back ≤ file.length then .ok (file.length - back) else .error .io

/-- `read_exact` of `n` bytes at absolute position `pos`. -/
def readExactAt (file : List Nat) (pos n : Nat) : Except TBError (List Nat) :=
  if pos + n ≤ file.length then .ok ((file.drop pos).take n) else .error .io

/-- `TensorBuffersReader::get_metadata_size` — seek to 8 bytes before the
end, read 4 bytes, interpret as a little-endian `u32`. -/
def get_metadata_size (file : List Nat) : Except TBError Nat := do
  let pos ← seekFromEnd file 8
  let bytes ← readExactAt file pos 4
  pure (leVal bytes)

/-- `TensorBuffersReader::read_metadata` with a caller buffer of length
`bufLen`: verify the leading magic, recompute the metadata size, check
the buffer is large enough, seek to `length - metadata_size - 8` and
`read_exact` the whole buffer.  Returns the buffer contents on success. -/
def read_metadata (file : List Nat) (bufLen : Nat) : Except TBError (List Nat) := do
  let magic ← readExactAt file 0 4
  if magic ≠ MAGIC_BYTES then
    .error .format
  else do
    let ms ← get_metadata_size file
    if bufLen < ms then
      .error .size
    else do
      let pos ← seekFromEnd file (ms + 8)
      readExactAt file pos bufLen

/-- `TensorBuffersReader::read_data_with_metadata` with a caller buffer
of length `bufLen`: seek to `data_offset`, check the buffer is at least
`data_size` long, and `read_exact` the whole buffer. -/
def read_data_with_metadata (file : List Nat) (offset size bufLen : Nat) :
    Except TBError (List Nat) :=
  if bufLen < size then .error .size
  else readExactAt file offset bufLen

/-!
## `TensorBuffers` facade (`tensor_buffers.rs`)

The facade wraps a streaming reader over the opened byte source (here:
the file's bytes) plus a single-assignment cache for the parsed trailer;
since the cache only memoises a pure computation, results are modelled
cache-transparently.  Note `get_metadata_root` allocates its buffer with
`BytesMut::with_capacity(metadata_size)`, which yields a buffer of
*length zero* (capacity is not length); that zero-length slice is what
`read_metadata` receives.
-/

/-- `TensorBuffers::get_metadata_root` — obtain the metadata size, call
`read_metadata` with the `BytesMut::with_capacity` buffer (whose slice
length is 0), and decode the result. -/
def get_metadata_root (file : List Nat) : Except TBError MetadataRoot := do
  let _ms ← get_metadata_size file
  let bytes ← read_metadata file 0
  match decodeMetadata bytes with
  | some root => .ok root
  | none => .error .format

/-- `TensorBuffers::get_tensor_metadata` — resolve the trailer root and
look the id up in the tensor table.  The generated FlatBuffers
`lookup_by_key` is external; modelled from the spec: lookups are a keyed
exact match against the tensor table, failing with a not-found error if
absent. -/
def get_tensor_metadata (file : List Nat) (tensor_id : Nat) : Except TBError TensorMeta := do
  let root ← get_metadata_root file
  match root.tensors.find? (fun m => m.id == tensor_id) with
  | some m => .ok m
  | none => .error .lookup

/-- `TensorBuffers::get_tensor_data_by_id::<T>` for an element kind `dt`:
resolve metadata; error on a kind mismatch; error when
`offset.checked_add(size)` (a `usize` addition of two values cast from
`u32`) overflows; read into a buffer resized to exactly `data_size`;
error when `data_size` is not a multiple of `size_of::<T>()`; otherwise
return the tensor rebuilt from the metadata and the read bytes
(`Tensor::new_with_metadata_and_data`). -/
def get_tensor_data_by_id (file : List Nat) (dt : DataTypeT) (tensor_id : Nat) :
    Except TBError TensorV := do
  let m ← get_tensor_metadata file tensor_id
  if m.dtype ≠ dt then
    .error .typeMismatch
  else if 2 ^ 64 ≤ m.data_offset + m.data_size then
    .error .range
  else do
    let buf ← read_data_with_metadata file m.data_offset m.data_size m.data_size
    if m.data_size % elemSize dt ≠ 0 then
      .error .sizeMultiple
    else
      .ok { id := m.id, name := m.name, data := buf, dtype := dt, shape := m.shape }

/-- `TensorBuffers::get_tensor_data_by_name` — fingerprint the name and
delegate to the id lookup. -/
def get_tensor_data_by_name (file : List Nat) (dt : DataTypeT) (name : List Nat) :
    Except TBError TensorV :=
  get_tensor_data_by_id file dt (hash_key name)

/-- The typed-retrieval tail of `get_tensor_data_by_id` (lines after
`get_tensor_metadata` returns), taking the resolved metadata as input
and additionally reporting whether the underlying source was accessed
(the `read_data_with_metadata` call, which seeks and reads the source):
kind check, `checked_add` overflow check, the read, then the
multiple-of-element-size check. -/
def typedFetch (file : List Nat) (m : TensorMeta) (dt : DataTypeT) :
    Except TBError (List Nat) × Bool :=
  if m.dtype ≠ dt then
    (.error .typeMismatch, false)
  else if 2 ^ 64 ≤ m.data_offset + m.data_size then
    (.error .range, false)
  else
    match read_data_with_metadata file m.data_offset m.data_size m.data_size with
    | .error e => (.error e, true)
    | .ok buf =>
      if m.data_size % elemSize dt ≠ 0 then (.error .sizeMultiple, true)
      else (.ok buf, true)

/-!
## Remote byte source (`tensor_buffers_file.rs::RemoteFile`)

`RemoteFile` holds the url, the logical cursor `offset` (`u64`), the
`file_size` discovered once at open time (`u64`), and the polling state:
`Idle`, or a single in-flight range fetch.  The in-flight fetch is
modelled by the range request it was created from.
-/

/-- An HTTP range fetch issued by `RemoteFile::fetch_range`. -/
structure RangeReq where
  url : String
  start : Nat
  size : Nat
deriving DecidableEq, Repr

/-- The `Range` header `fetch_range` attaches:
`format!("bytes={}-{}", offset, offset + size - 1)`. -/
def rangeHeader (r : RangeReq) : String :=
  "bytes=" ++ Nat.repr r.start ++ "-" ++ Nat.repr (r.start + r.size - 1)

/-- The `RemoteFile` state: `pending = none` is `ReadState::Idle`,
`pending = some req` is `ReadState::Fetch` with the in-flight request. -/
structure RemoteFile where
  url : String
  offset : Nat
  file_size : Nat
  pending : Option RangeReq
deriving DecidableEq, Repr

/-- Outcome of one `poll_read` call. -/
inductive PollOutcome where
  /-- The unchecked `u64` subtraction `file_size - offset` underflowed
  (a panic in debug builds, wrap-around in release builds). -/
  | underflow
  /-- `Poll::Ready(Ok(()))` with zero bytes delivered; state unchanged. -/
  | ready (st : RemoteFile)
  /-- A range fetch was issued and is now in flight. -/
  | issued (st : RemoteFile) (req : RangeReq)
  /-- An already-pending fetch was polled again. -/
  | awaiting (req : RangeReq)
deriving DecidableEq, Repr

/-- `RemoteFile::poll_read` up to its first suspension or completion:
in the idle state it computes
`size = (file_size - offset).min(buf.capacity())` — an unchecked `u64`
subtraction — completes immediately when `size == 0`, and otherwise
issues a single `fetch_range(url, offset, size)` and moves to the fetch
state; in the fetch state it polls the in-flight request. -/
def pollRead (st : RemoteFile) (cap : Nat) : PollOutcome :=
  match st.pending with
  | some req => .awaiting req
  | none =>
    if st.file_size < st.offset then .underflow
    else
      let size := min (st.file_size - st.offset) cap
      if size = 0 then .ready st
      else
        let req : RangeReq := ⟨st.url, st.offset, size⟩
        .issued { st with pending := some req } req

/-- Completion of the in-flight fetch with the received bytes: the bytes
are copied into the caller's buffer (`buf.put_slice`, defined only when
they fit the remaining capacity), the cursor advances by exactly the
number of bytes received (`u64` addition), and the state returns to
idle. -/
def fetchComplete (st : RemoteFile) (received : List Nat) : RemoteFile × List Nat :=
  ({ st with offset := (st.offset + received.length) % 2 ^ 64, pending := none }, received)

/-- `std::io::SeekFrom`. -/
inductive SeekFromT where
  | start (pos : Nat)
  | fromEnd (pos : Int)
  | fromCurrent (pos : Int)
deriving DecidableEq, Repr

/-- `u64::checked_add_signed` — `none` exactly when the signed addition
leaves `[0, 2^64)`. -/
def checkedAddSigned (base : Nat) (d : Int) : Option Nat :=
  if 0 ≤ (base : Int) + d ∧ (base : Int) + d < 2 ^ 64 then some ((base : Int) + d).toNat
  else none

/-- `AsyncSeek::start_seek` for `RemoteFile`: pure cursor arithmetic.
Returns the state after the call together with the error, if any;
on error the cursor assignment does not happen. -/
def startSeek (st : RemoteFile) (p : SeekFromT) : RemoteFile × Option TBError :=
  match p with
  | .start pos => ({ st with offset := pos }, none)
  | .fromEnd d =>
    match checkedAddSigned st.file_size d with
    | some v => ({ st with offset := v }, none)
    | none => (st, some .input)
  | .fromCurrent d =>
    match checkedAddSigned st.offset d with
    | some v => ({ st with offset := v }, none)
    | none => (st, some .input)

/-- `AsyncSeek::poll_complete` for `RemoteFile` — immediately ready with
the current cursor; no state change. -/
def pollComplete (st : RemoteFile) : Nat × RemoteFile :=
  (st.offset, st)

/-!
## Concrete instances

The concrete scenario of the spec (two `f32` tensors named "1" and "2"
with values `[1.0, 2.0, 3.0]` and `[4.0, 5.0, 6.0]`, shape `[3]`,
given here by their IEEE-754 little-endian bytes), plus the inputs used
by counterexamples and witnesses.
-/

/-- Tensor `"1"` of the concrete scenario: `[1.0f32, 2.0, 3.0]`. -/
def exT1 : TensorV :=
  TensorV.new [0x31] [0, 0, 128, 63, 0, 0, 0, 64, 0, 0, 64, 64] .float32 [3]

/-- Tensor `"2"` of the concrete scenario: `[4.0f32, 5.0, 6.0]`. -/
def exT2 : TensorV :=
  TensorV.new [0x32] [0, 0, 128, 64, 0, 0, 160, 64, 0, 0, 192, 64] .float32 [3]

/-- The concrete scenario's tensor list. -/
def exTensors : List TensorV := [exT1, exT2]

/-- The bytes the writer produces for the concrete scenario. -/
def exFile : List Nat := writeTensorsBytes exTensors

/-- The encoded trailer of the concrete scenario. -/
def exTrailer : List Nat := encodeMetadata VERSION (tensorMetas exTensors)

/-- The concrete scenario's file with its last 4 bytes (the trailing
magic) replaced by zero bytes. -/
def tamperedC2 : List Nat := exFile.take (exFile.length - 4) ++ [0, 0, 0, 0]

/-- A 15-byte file in trailer layout: magic, 3 data/trailer bytes,
the length field `3`, trailing magic. -/
def fileC6 : List Nat := MAGIC_BYTES ++ [1, 2, 3] ++ leBytes 4 3 ++ MAGIC_BYTES

/-- Metadata whose `data_size` (6) is not a multiple of the `f32`
element size (4). -/
def metaC7 : TensorMeta :=
  { id := 7, name := [0x37], dtype := .float32, data_offset := 4, data_size := 6, shape := [6] }

/-- A 16-byte file backing `metaC7`'s byte range. -/
def fileC7 : List Nat := List.range 16

/-- A tensor whose data is exactly `2^32` bytes long, so that
`data_bytes.len() as u32` truncates to 0. -/
def tBig : TensorV :=
  { id := 1, name := [0x62], data := List.replicate (2 ^ 32) 0, dtype := .uint8,
    shape := [2 ^ 32] }

/-- A one-byte tensor following `tBig`. -/
def tSmall : TensorV :=
  { id := 2, name := [0x73], data := [7], dtype := .uint8, shape := [1] }

/-- An idle remote file with 5 unread bytes, used with a zero-capacity
buffer. -/
def stCap0 : RemoteFile := { url := "u", offset := 0, file_size := 5, pending := none }

/-- An idle remote file with the cursor at 2 of 10 bytes. -/
def st8 : RemoteFile := { url := "u", offset := 2, file_size := 10, pending := none }

/-- A freshly opened remote file of 10 bytes. -/
def st10 : RemoteFile := { url := "u", offset := 0, file_size := 10, pending := none }

/-!
## Helper lemmas
-/

theorem tbBind_ok {a b : Type} (x : a) (f : a → Except TBError b) :
    (Except.ok x >>= f : Except TBError b) = f x := rfl

theorem tbBind_err {a b : Type} (e : TBError) (f : a → Except TBError b) :
    (Except.error e >>= f : Except TBError b) = .error e := rfl

theorem tbPure {a : Type} (x : a) : (pure x : Except TBError a) = .ok x := rfl

theorem seekFromEnd_ok {file : List Nat} {back : Nat} (h : back ≤ file.length) :
    seekFromEnd file back = .ok (file.length - back) := by
  simp [seekFromEnd, h]

theorem readExactAt_ok {file : List Nat} {pos n : Nat} (h : pos + n ≤ file.length) :
    readExactAt file pos n = .ok ((file.drop pos).take n) := by
  simp [readExactAt, h]

theorem readExactAt_err {file : List Nat} {pos n : Nat} (h : file.length < pos + n) :
    readExactAt file pos n = .error .io := by
  simp [readExactAt]
  omega

/-- On any file whose last 8 bytes are a 4-byte little-endian length
field followed by 4 more bytes, `get_metadata_size` decodes that length
field. -/
theorem get_metadata_size_layout (pre : List Nat) (k : Nat) :
    get_metadata_size (pre ++ leBytes 4 k ++ MAGIC_BYTES) = .ok (k % 2 ^ 32) := by
  have hlen : (pre ++ leBytes 4 k ++ MAGIC_BYTES).length = pre.length + 8 := by
    simp [leBytes_length, MAGIC_BYTES]
  have h8 : 8 ≤ (pre ++ leBytes 4 k ++ MAGIC_BYTES).length := by omega
  have hpos : (pre ++ leBytes 4 k ++ MAGIC_BYTES).length - 8 = pre.length := by omega
  have h4 : pre.length + 4 ≤ (pre ++ leBytes 4 k ++ MAGIC_BYTES).length := by omega
  have hdrop : (pre ++ leBytes 4 k ++ MAGIC_BYTES).drop pre.length =
      leBytes 4 k ++ MAGIC_BYTES := by
    rw [List.append_assoc]; exact List.drop_left pre _
  have htake : (leBytes 4 k ++ MAGIC_BYTES).take 4 = leBytes 4 k :=
    List.take_left' (leBytes_length 4 k)
  unfold get_metadata_size
  rw [seekFromEnd_ok h8, hpos, tbBind_ok, readExactAt_ok h4, hdrop, htake, tbBind_ok,
    leVal_leBytes_four, tbPure]

theorem writeLoop_snd (cur : Nat) (ts : List TensorV) :
    (writeLoop cur ts).2 = (ts.map TensorV.data).flatten := by
  induction ts generalizing cur with
  | nil => simp [writeLoop]
  | cons t ts ih => simp [writeLoop, ih]

/-- The offsets pushed by the writer's forward pass, in closed form:
offset `i` is the running cursor plus the `u32`-truncated sizes of the
tensors before `i`, reduced `% 2^32` by the `as u32` push. -/
theorem writeLoop_fst (ts : List TensorV) (cur : Nat) :
    (writeLoop cur ts).1 =
      (List.range ts.length).map
        (fun i => (cur + (((ts.take i).map (fun t => t.data.length % 2 ^ 32)).sum)) % 2 ^ 32) := by
  induction ts generalizing cur with
  | nil => simp [writeLoop]
  | cons t ts ih =>
    simp only [writeLoop, List.length_cons, List.range_succ_eq_map, List.map_cons,
      List.map_map]
    refine List.cons_eq_cons.mpr ⟨by simp, ?_⟩
    rw [ih]
    apply List.map_congr_left
    intro i _
    simp only [Function.comp, List.take_succ_cons, List.map_cons, List.sum_cons,
      Nat.succ_eq_add_one]
    omega

theorem writer_length (ts : List TensorV) :
    (writeTensorsBytes ts).length =
      12 + (writeLoop 4 ts).2.length + (encodeMetadata VERSION (tensorMetas ts)).length := by
  simp [writeTensorsBytes, leBytes_length, MAGIC_BYTES]
  omega

theorem writer_take4 (ts : List TensorV) : (writeTensorsBytes ts).take 4 = MAGIC_BYTES := by
  have h4 : MAGIC_BYTES.length = 4 := rfl
  show (MAGIC_BYTES ++ (writeLoop 4 ts).2 ++ encodeMetadata VERSION (tensorMetas ts) ++
    leBytes 4 ((encodeMetadata VERSION (tensorMetas ts)).length % 2 ^ 32) ++
      MAGIC_BYTES).take 4 = MAGIC_BYTES
  simp only [List.append_assoc]
  exact List.take_left' h4

/-- The writer's output carries its trailer length (`as u32`) in the
4 bytes at `length - 8`. -/
theorem writer_get_metadata_size (ts : List TensorV) :
    get_metadata_size (writeTensorsBytes ts) =
      .ok ((encodeMetadata VERSION (tensorMetas ts)).length % 2 ^ 32) := by
  have h := get_metadata_size_layout
    (MAGIC_BYTES ++ (writeLoop 4 ts).2 ++ encodeMetadata VERSION (tensorMetas ts))
    ((encodeMetadata VERSION (tensorMetas ts)).length % 2 ^ 32)
  rw [Nat.mod_mod_of_dvd _ dvd_rfl] at h
  exact h

/-- The `BytesMut::with_capacity` slip: `read_metadata` is always called
with a zero-length buffer by the facade, so it fails with the
buffer-size error whenever the recorded trailer length is nonzero. -/
theorem writer_read_metadata_zero (ts : List TensorV)
    (h : 0 < (encodeMetadata VERSION (tensorMetas ts)).length % 2 ^ 32) :
    read_metadata (writeTensorsBytes ts) 0 = .error .size := by
  have hL := writer_length ts
  have h04 : 0 + 4 ≤ (writeTensorsBytes ts).length := by omega
  unfold read_metadata
  rw [readExactAt_ok h04, List.drop_zero, writer_take4, tbBind_ok, if_neg (by simp),
    writer_get_metadata_size, tbBind_ok, if_pos h]

/-- The facade can never load the trailer of a written file: the parsed
root is unreachable behind the zero-length-buffer error. -/
theorem writer_get_metadata_root (ts : List TensorV)
    (h : 0 < (encodeMetadata VERSION (tensorMetas ts)).length % 2 ^ 32) :
    get_metadata_root (writeTensorsBytes ts) = .error .size := by
  unfold get_metadata_root
  rw [writer_get_metadata_size, tbBind_ok, writer_read_metadata_zero ts h, tbBind_err]

theorem writer_get_tensor_metadata (ts : List TensorV) (tid : Nat)
    (h : 0 < (encodeMetadata VERSION (tensorMetas ts)).length % 2 ^ 32) :
    get_tensor_metadata (writeTensorsBytes ts) tid = .error .size := by
  unfold get_tensor_metadata
  rw [writer_get_metadata_root ts h, tbBind_err]

/-!
## Claim theorems
-/

/-- C1: the claimed round trip never happens through the facade — for
every written file whose recorded trailer length is nonzero (true of
every actual written file), `get_tensor_data_by_id` and
`get_tensor_data_by_name` fail with the "Buffer size is insufficient"
error for every element kind, id and name, because the facade hands
`read_metadata` the zero-length slice of a `BytesMut::with_capacity`
buffer instead of a `metadata_size`-byte buffer. -/
theorem c1_roundtrip_facade_always_errors (ts : List TensorV)
    (h : 0 < (encodeMetadata VERSION (tensorMetas ts)).length % 2 ^ 32) :
    (∀ dt tid, get_tensor_data_by_id (writeTensorsBytes ts) dt tid = Except.error .size) ∧
    (∀ dt name, get_tensor_data_by_name (writeTensorsBytes ts) dt name = Except.error .size) := by
  have hid : ∀ dt tid,
      get_tensor_data_by_id (writeTensorsBytes ts) dt tid = Except.error .size := by
    intro dt tid
    unfold get_tensor_data_by_id
    rw [writer_get_tensor_metadata ts tid h, tbBind_err]
  exact ⟨hid, fun dt name => hid dt (hash_key name)⟩

/-- C1 witness: the concrete two-tensor scenario of the spec hits the
buffer-size error when tensor "1" is requested at its correct type. -/
theorem c1_roundtrip_facade_always_errors_witness :
    0 < (encodeMetadata VERSION (tensorMetas exTensors)).length % 2 ^ 32 ∧
    get_tensor_data_by_name (writeTensorsBytes exTensors) .float32 [0x31] =
      Except.error .size :=
  ⟨by decide, (c1_roundtrip_facade_always_errors exTensors (by decide)).2 .float32 [0x31]⟩

/-- C2 (amended): `read_metadata` rejects any file whose first 4 bytes
differ from the magic with the format error; the trailing magic is
never re-checked (see the counterexample). -/
theorem c2_leading_magic_rejected (file : List Nat) (bufLen : Nat)
    (h4 : 4 ≤ file.length) (hm : file.take 4 ≠ MAGIC_BYTES) :
    read_metadata file bufLen = .error .format := by
  unfold read_metadata
  rw [readExactAt_ok (by omega : 0 + 4 ≤ file.length), List.drop_zero, tbBind_ok, if_pos hm]

/-- C2 witness: a 4-byte file of `9`s is rejected with the format
error. -/
theorem c2_leading_magic_rejected_witness :
    4 ≤ ([9, 9, 9, 9] : List Nat).length ∧ ([9, 9, 9, 9] : List Nat).take 4 ≠ MAGIC_BYTES ∧
    read_metadata [9, 9, 9, 9] 0 = .error .format :=
  ⟨by decide, by decide, c2_leading_magic_rejected [9, 9, 9, 9] 0 (by decide) (by decide)⟩

/-- C2 counterexample: the concrete written file with its last 4 bytes
(the trailing magic) replaced by zeros is *accepted* by `read_metadata`,
which returns the trailer bytes successfully — the claim that altering
the last 4 bytes yields a format error is false. -/
theorem c2_trailing_magic_not_checked :
    tamperedC2.length = exFile.length ∧
    tamperedC2.take (tamperedC2.length - 4) = exFile.take (exFile.length - 4) ∧
    tamperedC2.drop (tamperedC2.length - 4) = [0, 0, 0, 0] ∧
    [0, 0, 0, 0] ≠ MAGIC_BYTES ∧
    read_metadata tamperedC2 exTrailer.length = .ok exTrailer := by
  refine ⟨by decide, by decide, by decide, by decide, by decide⟩

/-- C3: on the concrete written file, requesting tensor "1" with the
wrong element kind (`i32` instead of `f32`) does *not* fail with the
type-mismatch error, and requesting it with the right kind does not
succeed — both calls die earlier with the facade's buffer-size error
(the `BytesMut::with_capacity` slip). -/
theorem c3_type_checks_unreachable :
    get_tensor_data_by_id exFile .int32 (hash_key [0x31]) = .error .size ∧
    get_tensor_data_by_id exFile .float32 (hash_key [0x31]) = .error .size := by
  refine ⟨by decide, by decide⟩

/-- C4: `get_tensor_data_by_name` always agrees with
`get_tensor_data_by_id` on the fingerprinted name (it is exactly that
call); but on the concrete written file a present id does not resolve to
its metadata and an absent id does not fail with the not-found error —
both fail with the facade's buffer-size error instead. -/
theorem c4_lookup_delegation_and_errors :
    (∀ (file : List Nat) (dt : DataTypeT) (name : List Nat),
      get_tensor_data_by_name file dt name = get_tensor_data_by_id file dt (hash_key name)) ∧
    get_tensor_metadata exFile (hash_key [0x31]) = .error .size ∧
    get_tensor_metadata exFile 999 = .error .size :=
  ⟨fun _ _ _ => rfl, by decide, by decide⟩

/-- C5 (amended): the writer's output is
`[magic][data blocks in input order][trailer][trailer length as
little-endian u32][magic]`, and the recorded `data_offset` of tensor `i`
is `(4 + sum of the u32-truncated byte lengths of tensors 0..i) mod
2^32` — equal to `4 + sum of byte lengths` whenever that value fits in a
`u32`, but truncated by the `as u32` casts in general. -/
theorem c5_layout_and_offsets (ts : List TensorV) :
    writeTensorsBytes ts =
      MAGIC_BYTES ++ (ts.map TensorV.data).flatten ++ encodeMetadata VERSION (tensorMetas ts) ++
        leBytes 4 ((encodeMetadata VERSION (tensorMetas ts)).length % 2 ^ 32) ++ MAGIC_BYTES ∧
    (writeLoop 4 ts).1 =
      (List.range ts.length).map
        (fun i => (4 + (((ts.take i).map (fun t => t.data.length % 2 ^ 32)).sum)) % 2 ^ 32) := by
  constructor
  · unfold writeTensorsBytes
    rw [writeLoop_snd]
  · exact writeLoop_fst ts 4

/-- C5 counterexample: for a first tensor of exactly `2^32` data bytes
followed by a 1-byte tensor, the recorded offsets are `[4, 4]`, not the
claimed `[4 + 0 bytes, 4 + 2^32 bytes]` — the `as u32` casts wrap. -/
theorem c5_offset_truncation_counterexample :
    (writeLoop 4 [tBig, tSmall]).1 ≠
      (List.range 2).map
        (fun i => 4 + ((([tBig, tSmall].take i).map (fun t => t.data.length)).sum)) := by
  have hbig : tBig.data.length = 2 ^ 32 := List.length_replicate _ _
  have hL : (writeLoop 4 [tBig, tSmall]).1 = [4, 4] := by
    rw [writeLoop_fst]
    simp [List.range_succ, hbig]
  have hR : (List.range 2).map
      (fun i => 4 + ((([tBig, tSmall].take i).map (fun t => t.data.length)).sum)) =
      [4, 4 + 2 ^ 32] := by
    simp [List.range_succ, hbig]
  rw [hL, hR]
  decide

/-- C6 (amended): on a source whose last 8 bytes are a little-endian
`u32` length `ms` followed by 4 more bytes, `get_metadata_size` returns
`ms`; `read_metadata` fails with the sizing error when the buffer is
smaller than `ms`, succeeds filling the *whole* buffer from offset
`length - ms - 8` when the buffer length is between `ms` and `ms + 8`
(so exactly the `ms` trailer bytes only when the buffer length is
exactly `ms`), and fails with an I/O error (EOF) when the buffer
exceeds `ms + 8`. -/
theorem c6_trailer_location (file pre : List Nat) (ms bufLen : Nat)
    (hfile : file = pre ++ leBytes 4 ms ++ MAGIC_BYTES)
    (hms : ms < 2 ^ 32)
    (hmagic : file.take 4 = MAGIC_BYTES)
    (hfit : ms + 8 ≤ file.length) :
    get_metadata_size file = .ok ms ∧
    (bufLen < ms → read_metadata file bufLen = .error .size) ∧
    (ms ≤ bufLen → bufLen ≤ ms + 8 →
      read_metadata file bufLen = .ok ((file.drop (file.length - (ms + 8))).take bufLen)) ∧
    (ms + 8 < bufLen → read_metadata file bufLen = .error .io) := by
  have hgms : get_metadata_size file = .ok ms := by
    rw [hfile]
    have h := get_metadata_size_layout pre ms
    rwa [Nat.mod_eq_of_lt hms] at h
  have hmn : ¬file.take 4 ≠ MAGIC_BYTES := fun hc => hc hmagic
  have h04 : 0 + 4 ≤ file.length := by omega
  refine ⟨hgms, ?_, ?_, ?_⟩
  · intro hlt
    unfold read_metadata
    rw [readExactAt_ok h04, List.drop_zero, tbBind_ok, if_neg hmn, hgms, tbBind_ok, if_pos hlt]
  · intro hge hle
    unfold read_metadata
    rw [readExactAt_ok h04, List.drop_zero, tbBind_ok, if_neg hmn, hgms, tbBind_ok,
      if_neg (by omega), seekFromEnd_ok hfit, tbBind_ok,
      readExactAt_ok (by omega : file.length - (ms + 8) + bufLen ≤ file.length)]
  · intro hgt
    unfold read_metadata
    rw [readExactAt_ok h04, List.drop_zero, tbBind_ok, if_neg hmn, hgms, tbBind_ok,
      if_neg (by omega), seekFromEnd_ok hfit, tbBind_ok,
      readExactAt_err (by omega : file.length < file.length - (ms + 8) + bufLen)]

/-- C6 witness: the 15-byte layout file with trailer length 3 and an
exactly-sized buffer. -/
theorem c6_trailer_location_witness :
    (fileC6 = (MAGIC_BYTES ++ [1, 2, 3]) ++ leBytes 4 3 ++ MAGIC_BYTES ∧ 3 < 2 ^ 32 ∧
      fileC6.take 4 = MAGIC_BYTES ∧ 3 + 8 ≤ fileC6.length) ∧
    get_metadata_size fileC6 = .ok 3 ∧
    read_metadata fileC6 3 = .ok ((fileC6.drop (fileC6.length - (3 + 8))).take 3) := by
  have h := c6_trailer_location fileC6 (MAGIC_BYTES ++ [1, 2, 3]) 3 3 rfl (by decide)
    (by decide) (by decide)
  exact ⟨⟨rfl, by decide, by decide, by decide⟩, h.1, h.2.2.1 (by decide) (by decide)⟩

/-- C6 counterexample: with trailer length 3, a buffer of length 12
(≥ 3) makes `read_metadata` fail with an EOF I/O error, and a buffer of
length 4 succeeds but is filled with 4 bytes (the trailer plus one byte
of the length field), not "exactly the metadata_size bytes" as
claimed — `read_exact` always fills the whole caller buffer. -/
theorem c6_oversized_buffer_counterexample :
    (3 : Nat) ≤ 12 ∧ read_metadata fileC6 12 = .error .io ∧
    read_metadata fileC6 4 = .ok [1, 2, 3, 3] := by
  refine ⟨by decide, by decide, by decide⟩

/-- C7 (amended): in the typed-retrieval tail of
`get_tensor_data_by_id`, the element-kind check comes first and fails
without touching the source; the `checked_add` bounds check (a `usize`
overflow test, which cannot fire for `u32`-sized fields and never
compares against the file length) comes second; then the byte range *is
read from the source*, and only afterwards is `data_size` checked to be
a multiple of the element size — a non-multiple `data_size` fails after
the read, not before. -/
theorem c7_validation_order (file : List Nat) (m : TensorMeta) (dt : DataTypeT) :
    (m.dtype ≠ dt → typedFetch file m dt = (.error .typeMismatch, false)) ∧
    (m.dtype = dt → 2 ^ 64 ≤ m.data_offset + m.data_size →
      typedFetch file m dt = (.error .range, false)) ∧
    (m.dtype = dt → m.data_offset + m.data_size < 2 ^ 64 →
      (typedFetch file m dt).2 = true) ∧
    (m.dtype = dt → m.data_offset + m.data_size < 2 ^ 64 →
      m.data_offset + m.data_size ≤ file.length → m.data_size % elemSize dt ≠ 0 →
      typedFetch file m dt = (.error .sizeMultiple, true)) := by
  refine ⟨?_, ?_, ?_, ?_⟩
  · intro hne
    simp [typedFetch, hne]
  · intro heq hof
    unfold typedFetch
    rw [if_neg (by simp [heq]), if_pos hof]
  · intro heq hlt
    unfold typedFetch
    rw [if_neg (by simp [heq]), if_neg (Nat.not_le.mpr hlt)]
    rcases hr : read_data_with_metadata file m.data_offset m.data_size m.data_size with e | buf
    · rfl
    · by_cases hm2 : m.data_size % elemSize dt = 0 <;> simp [hm2]
  · intro heq hlt hle hmul
    have hread : read_data_with_metadata file m.data_offset m.data_size m.data_size =
        .ok ((file.drop m.data_offset).take m.data_size) := by
      unfold read_data_with_metadata
      rw [if_neg (by omega), readExactAt_ok (by omega : m.data_offset + m.data_size ≤ file.length)]
    unfold typedFetch
    rw [if_neg (by simp [heq]), if_neg (Nat.not_le.mpr hlt), hread]
    simp [hmul]

/-- C7 witness: a kind mismatch fails with the type-mismatch error and
no source access. -/
theorem c7_validation_order_witness :
    metaC7.dtype ≠ DataTypeT.int32 ∧
    typedFetch fileC7 metaC7 .int32 = (.error .typeMismatch, false) :=
  ⟨by decide, (c7_validation_order fileC7 metaC7 .int32).1 (by decide)⟩

/-- C7 counterexample: metadata with `data_size = 6` and element kind
`f32` (element size 4) fails with the size-multiple error *after* the
byte range has been read from the source (the second component `true`
records the performed read) — the claim that the call fails without any
data read is false. -/
theorem c7_read_before_multiple_check :
    metaC7.data_size % elemSize metaC7.dtype ≠ 0 ∧
    typedFetch fileC7 metaC7 .float32 = (.error .sizeMultiple, true) := by
  refine ⟨by decide, by decide⟩

/-- C8 (amended): `poll_read` on a pending state only polls the single
in-flight fetch; on an idle state with the cursor not past end-of-file
it completes immediately with zero bytes and no fetch when
`min(file_size - offset, capacity) = 0` (cursor at end *or* zero
capacity), and otherwise issues exactly one range fetch starting at the
cursor with that size, whose `Range` header is
`bytes=offset-(offset+size-1)`; completion of a fetch delivers the
received bytes, advances the cursor by exactly their number, and returns
the state to idle. -/
theorem c8_read_protocol (st : RemoteFile) (cap : Nat) :
    (∀ req, st.pending = some req → pollRead st cap = .awaiting req) ∧
    (st.pending = none → st.offset ≤ st.file_size →
      (min (st.file_size - st.offset) cap = 0 → pollRead st cap = .ready st) ∧
      (0 < min (st.file_size - st.offset) cap →
        pollRead st cap =
          .issued { st with pending := some ⟨st.url, st.offset, min (st.file_size - st.offset) cap⟩ }
            ⟨st.url, st.offset, min (st.file_size - st.offset) cap⟩ ∧
        rangeHeader ⟨st.url, st.offset, min (st.file_size - st.offset) cap⟩ =
          "bytes=" ++ Nat.repr st.offset ++ "-" ++
            Nat.repr (st.offset + min (st.file_size - st.offset) cap - 1))) ∧
    (∀ received : List Nat, st.offset + received.length < 2 ^ 64 →
      (fetchComplete st received).1.offset = st.offset + received.length ∧
      (fetchComplete st received).1.pending = none ∧
      (fetchComplete st received).2 = received ∧
      (fetchComplete st received).1.url = st.url ∧
      (fetchComplete st received).1.file_size = st.file_size) := by
  refine ⟨?_, ?_, ?_⟩
  · intro req hp
    simp [pollRead, hp]
  · intro hp hofs
    have hnu : ¬st.file_size < st.offset := Nat.not_lt.mpr hofs
    constructor
    · intro h0
      simp [pollRead, hp, hnu, h0]
    · intro hpos
      have hne : ¬min (st.file_size - st.offset) cap = 0 := by omega
      refine ⟨?_, rfl⟩
      simp [pollRead, hp, hnu, hne]
  · intro received hfit
    refine ⟨?_, rfl, rfl, rfl, rfl⟩
    simp only [fetchComplete]
    omega

/-- C8 witness: an idle file with 8 remaining bytes and a 4-byte buffer
issues one fetch for `[2, 6)` with header `bytes=2-5`; completing it
with 4 bytes advances the cursor to 6. -/
theorem c8_read_protocol_witness :
    st8.pending = none ∧ st8.offset ≤ st8.file_size ∧
    0 < min (st8.file_size - st8.offset) 4 ∧
    pollRead st8 4 =
      .issued { st8 with pending := some ⟨st8.url, st8.offset, min (st8.file_size - st8.offset) 4⟩ }
        ⟨st8.url, st8.offset, min (st8.file_size - st8.offset) 4⟩ ∧
    rangeHeader ⟨st8.url, st8.offset, min (st8.file_size - st8.offset) 4⟩ = "bytes=2-5" ∧
    (fetchComplete st8 [7, 7, 7, 7]).1.offset = 6 := by
  have h := c8_read_protocol st8 4
  have hiss := (h.2.1 rfl (by decide)).2 (by decide)
  have hcomp := h.2.2 [7, 7, 7, 7] (by decide)
  exact ⟨rfl, by decide, by decide, hiss.1, hiss.2.trans (by decide), hcomp.1.trans (by decide)⟩

/-- C8 counterexample: with a zero-capacity buffer and 5 unread bytes,
`poll_read` completes immediately with zero bytes and issues no fetch,
although the cursor is not at end-of-file — the claim that a fetch of
size `min(remaining, capacity)` is issued whenever `remaining ≠ 0` is
false. -/
theorem c8_zero_capacity_no_fetch :
    stCap0.file_size - stCap0.offset ≠ 0 ∧
    pollRead stCap0 0 = .ready stCap0 := by
  refine ⟨by decide, by decide⟩

/-- C9: `start_seek` is pure cursor arithmetic — it preserves the url,
the discovered file size and the pending-fetch state in every mode;
when it returns an error the whole state (the cursor included) is
unchanged; `SeekFrom::Start` always succeeds and stores the given
position; the end-relative and current-relative modes succeed exactly
when `base + displacement` stays inside the `u64` range, storing that
sum, and fail with the input error otherwise; `poll_complete` just
reports the cursor. -/
theorem c9_seek_pure_cursor (st : RemoteFile) (p : SeekFromT) :
    ((startSeek st p).1.url = st.url ∧ (startSeek st p).1.file_size = st.file_size ∧
      (startSeek st p).1.pending = st.pending) ∧
    ((startSeek st p).2.isSome → startSeek st p = (st, some .input)) ∧
    (∀ q, p = .start q → startSeek st p = ({ st with offset := q }, none)) ∧
    (∀ d, p = .fromEnd d →
      ((startSeek st p).2 = none ↔
        0 ≤ (st.file_size : Int) + d ∧ (st.file_size : Int) + d < 2 ^ 64) ∧
      ((startSeek st p).2 = none → ((startSeek st p).1.offset : Int) = st.file_size + d)) ∧
    (∀ d, p = .fromCurrent d →
      ((startSeek st p).2 = none ↔
        0 ≤ (st.offset : Int) + d ∧ (st.offset : Int) + d < 2 ^ 64) ∧
      ((startSeek st p).2 = none → ((startSeek st p).1.offset : Int) = st.offset + d)) ∧
    pollComplete st = (st.offset, st) := by
  refine ⟨?_, ?_, ?_, ?_, ?_, rfl⟩
  · cases p with
    | start q => exact ⟨rfl, rfl, rfl⟩
    | fromEnd d =>
      rcases h : checkedAddSigned st.file_size d with _ | v <;> simp [startSeek, h]
    | fromCurrent d =>
      rcases h : checkedAddSigned st.offset d with _ | v <;> simp [startSeek, h]
  · cases p with
    | start q => intro h; simp [startSeek] at h
    | fromEnd d =>
      rcases h : checkedAddSigned st.file_size d with _ | v <;> simp [startSeek, h]
    | fromCurrent d =>
      rcases h : checkedAddSigned st.offset d with _ | v <;> simp [startSeek, h]
  · intro q hq
    subst hq
    rfl
  · intro d hd
    subst hd
    rcases h : checkedAddSigned st.file_size d with _ | v
    · have hc : ¬(0 ≤ (st.file_size : Int) + d ∧ (st.file_size : Int) + d < 2 ^ 64) := by
        intro hc
        rw [checkedAddSigned, if_pos hc] at h
        simp at h
      refine ⟨?_, by simp [startSeek, h]⟩
      simp only [startSeek, h]
      simp
      omega
    · have hc : 0 ≤ (st.file_size : Int) + d ∧ (st.file_size : Int) + d < 2 ^ 64 := by
        by_contra hc
        rw [checkedAddSigned, if_neg hc] at h
        simp at h
      have hv : v = ((st.file_size : Int) + d).toNat := by
        rw [checkedAddSigned, if_pos hc] at h
        exact (Option.some.inj h).symm
      refine ⟨by simp [startSeek, h]; omega, fun _ => ?_⟩
      simp only [startSeek, h]
      rw [hv]
      exact Int.toNat_of_nonneg hc.1
  · intro d hd
    subst hd
    rcases h : checkedAddSigned st.offset d with _ | v
    · have hc : ¬(0 ≤ (st.offset : Int) + d ∧ (st.offset : Int) + d < 2 ^ 64) := by
        intro hc
        rw [checkedAddSigned, if_pos hc] at h
        simp at h
      refine ⟨?_, by simp [startSeek, h]⟩
      simp only [startSeek, h]
      simp
      omega
    · have hc : 0 ≤ (st.offset : Int) + d ∧ (st.offset : Int) + d < 2 ^ 64 := by
        by_contra hc
        rw [checkedAddSigned, if_neg hc] at h
        simp at h
      have hv : v = ((st.offset : Int) + d).toNat := by
        rw [checkedAddSigned, if_pos hc] at h
        exact (Option.some.inj h).symm
      refine ⟨by simp [startSeek, h]; omega, fun _ => ?_⟩
      simp only [startSeek, h]
      rw [hv]
      exact Int.toNat_of_nonneg hc.1

/-- C9 witness: seeking 3 back from the end of a 10-byte remote file
succeeds, leaves the frame fields untouched, and lands the cursor at 7. -/
theorem c9_seek_pure_cursor_witness :
    (startSeek st8 (.fromEnd (-3))).1.pending = st8.pending ∧
    (startSeek st8 (.fromEnd (-3))).2 = none ∧
    ((startSeek st8 (.fromEnd (-3))).1.offset : Int) = st8.file_size + (-3) := by
  have h := c9_seek_pure_cursor st8 (.fromEnd (-3))
  have he := h.2.2.2.1 (-3) rfl
  have hnone : (startSeek st8 (.fromEnd (-3))).2 = none := he.1.mpr (by decide)
  exact ⟨h.1.2.2, hnone, he.2 hnone⟩

/-- C10: seeks never validate the cursor against the file size — from a
fresh 10-byte remote file, `SeekFrom::Start(11)` succeeds and leaves the
cursor at 11, past end-of-file; the next `poll_read`'s unchecked `u64`
subtraction `file_size - offset` then underflows instead of the read
completing with zero bytes. -/
theorem c10_seek_past_eof_underflow :
    (startSeek st10 (.start 11)).2 = none ∧
    (startSeek st10 (.start 11)).1.offset = 11 ∧
    st10.file_size < (startSeek st10 (.start 11)).1.offset ∧
    pollRead (startSeek st10 (.start 11)).1 5 = .underflow := by
  refine ⟨rfl, rfl, by decide, by decide⟩

end TensorBuffers
